import Mathlib

/-!
Verification of the voxel-chunk core of the Cppcraft engine.

The definitions below are a shallow embedding of `src/world/chunk.cpp`
(the `Chunk` class with `meshDirty`/`meshBuilt` flags), of the index
function `Chunk::GetIndex` from `src/world/chunk.h`, and of the chunk-map
key `World::chunkKey` documented in `src/world/world.h`.

Modelling conventions:
* C++ `int` is modelled as `Int`; where 32-bit wrap-around matters
  (`World::chunkKey`) the two's-complement conversion is explicit.
* The block array `std::vector<BlockType>` is modelled as a total
  function `Nat → BlockType`; `setBlock` performs a pointwise update.
* `float` values that only flow into the vertex buffers and the height
  function are modelled as `ℚ`; all the concrete values produced by the
  code (small integers, sixteenths of the texture atlas) are exactly
  representable, and the trigonometric calls in `generateHeight` are
  abstracted as arbitrary function parameters `sinF cosF : ℚ → ℚ`.
* OpenGL calls are modelled by explicit state: `glGenVertexArrays` /
  `glGenBuffers` advance a name counter `nextName` and a `genCount`
  tally, `glBufferData` stores the uploaded contents in `vboData` /
  `eboData`.
-/

namespace Cppcraft

/-- Block types used by `chunk.cpp` (`BlockType::Air/Stone/Dirt/Grass`). -/
inductive BlockType where
  | Air
  | Stone
  | Dirt
  | Grass
deriving DecidableEq

/-- `CHUNK_SIZE` = 16: the chunk edge length in x and z. -/
def CHUNK_SIZE : Int := 16

/-- `CHUNK_HEIGHT` = 256: the chunk height in y. -/
def CHUNK_HEIGHT : Int := 256

/-- State of a `Chunk` object from `chunk.cpp`, including the modelled
GL-side state (buffer contents and name-allocation counters). -/
structure Chunk where
  chunkX : Int
  chunkY : Int
  chunkZ : Int
  blocks : Nat → BlockType
  meshDirty : Bool
  meshBuilt : Bool
  vao : Nat
  vbo : Nat
  ebo : Nat
  vertexCount : Nat
  indexCount : Nat
  vboData : List ℚ
  eboData : List Nat
  nextName : Nat
  genCount : Nat

/-- `Chunk::Chunk`: blocks initialised to `Air`, `meshDirty = true`,
`meshBuilt = false`, GL handles zeroed. -/
def Chunk.init (cx cy cz : Int) : Chunk where
  chunkX := cx
  chunkY := cy
  chunkZ := cz
  blocks := fun _ => BlockType.Air
  meshDirty := true
  meshBuilt := false
  vao := 0
  vbo := 0
  ebo := 0
  vertexCount := 0
  indexCount := 0
  vboData := []
  eboData := []
  nextName := 1
  genCount := 0

/-- `Chunk::isInBounds`:
`x >= 0 && x < CHUNK_SIZE && y >= 0 && y < CHUNK_HEIGHT && z >= 0 && z < CHUNK_SIZE`. -/
def Chunk.isInBounds (x y z : Int) : Bool :=
  decide (0 ≤ x) && decide (x < CHUNK_SIZE) &&
  decide (0 ≤ y) && decide (y < CHUNK_HEIGHT) &&
  decide (0 ≤ z) && decide (z < CHUNK_SIZE)

/-- `Chunk::getBlockIndex`: `x + CHUNK_SIZE * (z + CHUNK_SIZE * y)`. -/
def Chunk.getBlockIndex (x y z : Int) : Int :=
  x + CHUNK_SIZE * (z + CHUNK_SIZE * y)

/-- `Chunk::getBlock`: bounds-checked read, `Air` when out of bounds. -/
def Chunk.getBlock (c : Chunk) (x y z : Int) : BlockType :=
  if Chunk.isInBounds x y z then c.blocks (Chunk.getBlockIndex x y z).toNat
  else BlockType.Air

/-- `Chunk::setBlock`: bounds-checked write that also sets `meshDirty`;
a silent no-op out of bounds. -/
def Chunk.setBlock (c : Chunk) (x y z : Int) (t : BlockType) : Chunk :=
  if Chunk.isInBounds x y z then
    { c with
      blocks := fun j =>
        if j = (Chunk.getBlockIndex x y z).toNat then t else c.blocks j
      meshDirty := true }
  else c

/-- `std::clamp(v, lo, hi)`. -/
def clampInt (v lo hi : Int) : Int :=
  if v < lo then lo else if hi < v then hi else v

/-- `static_cast<int>` on a non-integral value: truncation toward zero. -/
def truncQ (q : ℚ) : Int :=
  if 0 ≤ q then ⌊q⌋ else -⌊-q⌋

/-- `Chunk::generateHeight`, with `std::sin` and `std::cos` abstracted as
the parameters `sinF` and `cosF`:
`height = 40 + sin(x/50)*15 + cos(z/100)*15 + sin((x+z)/75)*10`,
then `std::clamp(static_cast<int>(height), 1, CHUNK_HEIGHT - 1)`. -/
def Chunk.generateHeight (sinF cosF : ℚ → ℚ) (x z : ℚ) : Int :=
  clampInt
    (truncQ (40 + sinF (x / 50) * 15 + cosF (z / 100) * 15 + sinF ((x + z) / 75) * 10))
    1 (CHUNK_HEIGHT - 1)

/-- The block chosen for height `height` at level `y` inside
`Chunk::generate`'s inner loop:
`y < height-3 → Stone`, `y < height → Dirt`, `y == height → Grass`, else `Air`. -/
def layerBlock (height y : Int) : BlockType :=
  if y < height - 3 then BlockType.Stone
  else if y < height then BlockType.Dirt
  else if y = height then BlockType.Grass
  else BlockType.Air

/-- The height `Chunk::generate` computes for local column `(x, z)`:
`generateHeight(chunkX * CHUNK_SIZE + x, chunkZ * CHUNK_SIZE + z)`. -/
def Chunk.columnHeight (sinF cosF : ℚ → ℚ) (c : Chunk) (x z : Int) : Int :=
  Chunk.generateHeight sinF cosF
    ((c.chunkX * CHUNK_SIZE + x : Int) : ℚ)
    ((c.chunkZ * CHUNK_SIZE + z : Int) : ℚ)

/-- The inner `y` loop of `Chunk::generate` for one column `(x, z)`:
`for y in [0,256): setBlock(x, y, z, layerBlock height y)`. -/
def Chunk.fillColumn (sinF cosF : ℚ → ℚ) (c : Chunk) (x z : Int) : Chunk :=
  (List.range 256).foldl
    (fun (c2 : Chunk) (y : Nat) =>
      c2.setBlock x (y : Int) z
        (layerBlock (Chunk.columnHeight sinF cosF c x z) (y : Int)))
    c

/-- `Chunk::generate`: fill every column, then set `meshDirty = true`. -/
def Chunk.generate (sinF cosF : ℚ → ℚ) (c : Chunk) : Chunk :=
  let c2 :=
    (List.range 16).foldl
      (fun (cx : Chunk) (x : Nat) =>
        (List.range 16).foldl
          (fun (cz : Chunk) (z : Nat) => Chunk.fillColumn sinF cosF cz (x : Int) (z : Int)) cx)
      c
  { c2 with meshDirty := true }

/-- The CPU-side mesh buffers built by `Chunk::buildMesh`
(`std::vector<float> vertices; std::vector<unsigned int> indices`). -/
structure MeshData where
  vertices : List ℚ
  indices : List Nat
deriving DecidableEq

/-- `Chunk::getTextureCoord`: atlas cell times `1/16`; the `face`
argument is unused by the source. -/
def getTextureCoord (t : BlockType) (_face : Nat) : ℚ × ℚ :=
  match t with
  | BlockType.Grass => (0, 0)
  | BlockType.Dirt => (2 / 16, 0)
  | BlockType.Stone => (1 / 16, 0)
  | BlockType.Air => (0, 0)

/-- `Chunk::addFace`: appends 4 vertices (8 floats each) for faces 0–5 and
always appends the 6 indices of the two triangles.  `baseIndex` is
`vertices.size() / 8`. -/
def addFace (x y z : Int) (face : Nat) (t : BlockType) (md : MeshData) : MeshData :=
  let baseIndex := md.vertices.length / 8
  let texX := (getTextureCoord t face).1
  let texY := (getTextureCoord t face).2
  let xq : ℚ := (x : ℚ)
  let yq : ℚ := (y : ℚ)
  let zq : ℚ := (z : ℚ)
  let faceVertices : List ℚ :=
    match face with
    | 0 =>
      [xq,     yq,     zq + 1, texX,     texY,     0, 0, 1,
       xq + 1, yq,     zq + 1, texX + 1, texY,     0, 0, 1,
       xq + 1, yq + 1, zq + 1, texX + 1, texY + 1, 0, 0, 1,
       xq,     yq + 1, zq + 1, texX,     texY + 1, 0, 0, 1]
    | 1 =>
      [xq + 1, yq,     zq,     texX,     texY,     0, 0, -1,
       xq,     yq,     zq,     texX + 1, texY,     0, 0, -1,
       xq,     yq + 1, zq,     texX + 1, texY + 1, 0, 0, -1,
       xq + 1, yq + 1, zq,     texX,     texY + 1, 0, 0, -1]
    | 2 =>
      [xq, yq,     zq,     texX,     texY,     -1, 0, 0,
       xq, yq,     zq + 1, texX + 1, texY,     -1, 0, 0,
       xq, yq + 1, zq + 1, texX + 1, texY + 1, -1, 0, 0,
       xq, yq + 1, zq,     texX,     texY + 1, -1, 0, 0]
    | 3 =>
      [xq + 1, yq,     zq + 1, texX,     texY,     1, 0, 0,
       xq + 1, yq,     zq,     texX + 1, texY,     1, 0, 0,
       xq + 1, yq + 1, zq,     texX + 1, texY + 1, 1, 0, 0,
       xq + 1, yq + 1, zq + 1, texX,     texY + 1, 1, 0, 0]
    | 4 =>
      [xq,     yq, zq + 1, texX,     texY,     0, -1, 0,
       xq,     yq, zq,     texX + 1, texY,     0, -1, 0,
       xq + 1, yq, zq,     texX + 1, texY + 1, 0, -1, 0,
       xq + 1, yq, zq + 1, texX,     texY + 1, 0, -1, 0]
    | 5 =>
      [xq,     yq + 1, zq,     texX,     texY,     0, 1, 0,
       xq,     yq + 1, zq + 1, texX + 1, texY,     0, 1, 0,
       xq + 1, yq + 1, zq + 1, texX + 1, texY + 1, 0, 1, 0,
       xq + 1, yq + 1, zq,     texX,     texY + 1, 0, 1, 0]
    | _ => []
  { vertices := md.vertices ++ faceVertices
    indices := md.indices ++
      [baseIndex, baseIndex + 1, baseIndex + 2, baseIndex, baseIndex + 2, baseIndex + 3] }

/-- The neighbour cell examined by `Chunk::addFaceIfExposed` for a given
face: 0:+z, 1:-z, 2:-x, 3:+x, 4:-y, 5:+y. -/
def faceNeighbor (x y z : Int) (face : Nat) : Int × Int × Int :=
  match face with
  | 0 => (x, y, z + 1)
  | 1 => (x, y, z - 1)
  | 2 => (x - 1, y, z)
  | 3 => (x + 1, y, z)
  | 4 => (x, y - 1, z)
  | 5 => (x, y + 1, z)
  | _ => (x, y, z)

/-- `Chunk::addFaceIfExposed`: emit the face only when the same-chunk
neighbour resolves to `Air`. -/
def Chunk.addFaceIfExposed (c : Chunk) (x y z : Int) (t : BlockType) (face : Nat)
    (md : MeshData) : MeshData :=
  let n := faceNeighbor x y z face
  if c.getBlock n.1 n.2.1 n.2.2 ≠ BlockType.Air then md
  else addFace x y z face t md

/-- The body of `Chunk::buildMesh`'s triple loop for one cell: skip `Air`,
otherwise try all six faces in order. -/
def Chunk.cellFaces (c : Chunk) (x y z : Int) (md : MeshData) : MeshData :=
  let bt := c.getBlock x y z
  if bt = BlockType.Air then md
  else
    let md0 := c.addFaceIfExposed x y z bt 0 md
    let md1 := c.addFaceIfExposed x y z bt 1 md0
    let md2 := c.addFaceIfExposed x y z bt 2 md1
    let md3 := c.addFaceIfExposed x y z bt 3 md2
    let md4 := c.addFaceIfExposed x y z bt 4 md3
    c.addFaceIfExposed x y z bt 5 md4

/-- Innermost (`z`) loop of `Chunk::buildMesh`. -/
def Chunk.rowFaces (c : Chunk) (x y : Int) (md : MeshData) : MeshData :=
  (List.range 16).foldl (fun (md : MeshData) (z : Nat) => c.cellFaces x y (z : Int) md) md

/-- Middle (`y`) loop of `Chunk::buildMesh`. -/
def Chunk.sliceFaces (c : Chunk) (x : Int) (md : MeshData) : MeshData :=
  (List.range 256).foldl (fun (md : MeshData) (y : Nat) => c.rowFaces x (y : Int) md) md

/-- The whole vertex/index computation of `Chunk::buildMesh`
(outer `x` loop over the two inner loops, starting from empty buffers). -/
def Chunk.buildCore (c : Chunk) : MeshData :=
  (List.range 16).foldl (fun (md : MeshData) (x : Nat) => c.sliceFaces (x : Int) md) ⟨[], []⟩

/-- `Chunk::buildMesh`: early return when `!meshDirty && meshBuilt`;
otherwise rebuild the buffers, generating the GL names only when
`!meshBuilt`, upload the data, and set `meshDirty = false`,
`meshBuilt = true`. -/
def Chunk.buildMesh (c : Chunk) : Chunk :=
  if !c.meshDirty && c.meshBuilt then c
  else
    let md := c.buildCore
    let c1 :=
      if !c.meshBuilt then
        { c with
          vao := c.nextName
          vbo := c.nextName + 1
          ebo := c.nextName + 2
          nextName := c.nextName + 3
          genCount := c.genCount + 3 }
      else c
    { c1 with
      vertexCount := md.vertices.length / 8
      indexCount := md.indices.length
      vboData := md.vertices
      eboData := md.indices
      meshDirty := false
      meshBuilt := true }

/-- Number of the six faces of cell `(x,y,z)` whose neighbour resolves to
`Air` through the same-chunk `getBlock` — i.e. the number of faces
`buildMesh` emits for that cell. -/
def exposedFaceCount (c : Chunk) (x y z : Int) : Nat :=
  ((List.range 6).filter
    (fun f =>
      c.getBlock (faceNeighbor x y z f).1 (faceNeighbor x y z f).2.1
        (faceNeighbor x y z f).2.2 = BlockType.Air)).length

/-- `Chunk::GetIndex` from `src/world/chunk.h`:
`y * (CHUNK_SIZE_X * CHUNK_SIZE_Z) + z * CHUNK_SIZE_X + x` with the
16×256×16 dimensions. -/
def GetIndex (x y z : Int) : Int :=
  y * (16 * 16) + z * 16 + x

/-- Two's-complement bit pattern of a C++ 32-bit `int` value. -/
def bits32 (v : Int) : Nat :=
  (v % (2 ^ 32 : Int)).toNat

/-- The C++ `int` value denoted by a 32-bit pattern. -/
def ofInt32 (n : Nat) : Int :=
  if n < 2 ^ 31 then (n : Int) else (n : Int) - 2 ^ 32

/-- Modelled from the spec: `World::chunkKey` has no definition under
`src/` — `src/world/world.h` only declares it and documents
`Key format: (chunkX << 16) | (chunkZ & 0xFFFF)` on `int` arguments
stored into a `long long`.  This is that expression under two's-complement
`int` semantics. -/
def World.chunkKey (chunkX chunkZ : Int) : Int :=
  ofInt32 (Nat.lor (bits32 (chunkX * 65536)) (bits32 chunkZ % 65536))

/-- Concrete chunk: a fresh chunk with a single `Stone` block at
`(8, 100, 8)`, used by the meshing claims. -/
def oneBlockChunk : Chunk :=
  (Chunk.init 0 0 0).setBlock 8 100 8 BlockType.Stone

/-- Concrete chunk: the single stone block at `(8, 100, 8)` plus exactly
one solid neighbour directly above it. -/
def twoBlockChunk : Chunk :=
  oneBlockChunk.setBlock 8 101 8 BlockType.Stone

/-- Concrete chunk state whose mesh is up to date
(`meshDirty = false`, `meshBuilt = true`). -/
def builtChunk : Chunk :=
  { Chunk.init 0 0 0 with meshDirty := false, meshBuilt := true }

/-- Constant function standing in for `sin`/`cos` in witnesses. -/
def constNegOne : ℚ → ℚ :=
  fun _ => -1

/-! ## Helper lemmas -/

/-- Propositional form of `Chunk::isInBounds`. -/
lemma isInBounds_iff {x y z : Int} :
    Chunk.isInBounds x y z = true ↔
      0 ≤ x ∧ x < 16 ∧ 0 ≤ y ∧ y < 256 ∧ 0 ≤ z ∧ z < 16 := by
  simp only [Chunk.isInBounds, CHUNK_SIZE, CHUNK_HEIGHT, Bool.and_eq_true,
    decide_eq_true_eq]
  tauto

/-- Closed form of `World::chunkKey` when `chunkX` fits in 16 signed bits:
the key is `chunkX * 65536 + (chunkZ mod 65536)`. -/
lemma chunkKey_closed (x z : Int) (hx0 : -32768 ≤ x) (hx1 : x < 32768) :
    World.chunkKey x z = x * 65536 + z % 65536 := by
  unfold World.chunkKey ofInt32 bits32
  have hb : ((z % 2 ^ 32).toNat) % 65536 < 2 ^ 16 := by
    have : ((z % 2 ^ 32).toNat) % 65536 < 65536 := Nat.mod_lt _ (by norm_num)
    omega
  have hm : ((x * 65536) % 2 ^ 32).toNat = 2 ^ 16 * (x % 65536).toNat := by
    have h32 : (2 : Int) ^ 32 = 4294967296 := by norm_num
    have h16 : (2 : Nat) ^ 16 = 65536 := by norm_num
    rw [h32, h16]
    omega
  have hlor : Nat.lor (((x * 65536) % 2 ^ 32).toNat) (((z % 2 ^ 32).toNat) % 65536) =
      ((x * 65536) % 2 ^ 32).toNat + ((z % 2 ^ 32).toNat) % 65536 := by
    rw [hm]
    exact (Nat.mul_add_lt_is_or hb _).symm
  rw [hlor, hm]
  have h32 : (2 : Int) ^ 32 = 4294967296 := by norm_num
  have h31 : (2 : Nat) ^ 31 = 2147483648 := by norm_num
  have h16 : (2 : Nat) ^ 16 = 65536 := by norm_num
  rw [h32, h31, h16]
  split_ifs <;> omega

/-- A left fold over a list each of whose elements fixes the
accumulator is the identity. -/
lemma foldl_congr_id {α β : Type} (f : β → α → β) (l : List α)
    (h : ∀ a ∈ l, ∀ b, f b a = b) (init : β) : l.foldl f init = init := by
  induction l generalizing init with
  | nil => rfl
  | cons a l ih =>
    rw [List.foldl_cons, h a (by simp)]
    exact ih (fun a ha b => h a (by simp [ha]) b) init

/-- A left fold over `List.range n` in which every index except `k`
fixes the accumulator reduces to the single step at `k`. -/
lemma foldl_range_single {β : Type} (f : β → Nat → β) (n k : Nat) (hk : k < n)
    (hid : ∀ a, a < n → a ≠ k → ∀ b, f b a = b) (init : β) :
    (List.range n).foldl f init = f init k := by
  have h1 : n = (k + 1) + (n - k - 1) := by omega
  rw [h1, List.range_add, List.range_succ, List.foldl_append, List.foldl_append]
  rw [foldl_congr_id f (List.range k)
    (fun a ha b => by
      simp only [List.mem_range] at ha
      exact hid a (by omega) (by omega) b) init]
  simp only [List.foldl_cons, List.foldl_nil, List.foldl_map]
  exact foldl_congr_id _ (List.range (n - k - 1))
    (fun a ha b => by
      simp only [List.mem_range] at ha
      exact hid ((k + 1) + a) (by omega) (by omega) b) _

/-- `addFace` appends exactly 4 vertices (32 floats) and 6 indices for
each of the six real faces. -/
lemma addFace_lengths (x y z : Int) (face : Nat) (t : BlockType) (md : MeshData)
    (h : face < 6) :
    (addFace x y z face t md).vertices.length = md.vertices.length + 32 ∧
      (addFace x y z face t md).indices.length = md.indices.length + 6 := by
  interval_cases face <;> simp [addFace]

/-- A cell holding `Air` contributes nothing to the mesh. -/
lemma cellFaces_air {c : Chunk} {x y z : Int} (h : c.getBlock x y z = BlockType.Air)
    (md : MeshData) : c.cellFaces x y z md = md := by
  simp [Chunk.cellFaces, h]

/-- Away from `(8,100,8)`, `oneBlockChunk` reads `Air` everywhere. -/
lemma oneBlock_air {x y z : Int} (h : ¬(x = 8 ∧ y = 100 ∧ z = 8)) :
    oneBlockChunk.getBlock x y z = BlockType.Air := by
  have h8 : Chunk.isInBounds 8 100 8 = true := by decide
  by_cases hb : Chunk.isInBounds x y z = true
  · have hbp := isInBounds_iff.mp hb
    have hidx : (Chunk.getBlockIndex x y z).toNat ≠ (Chunk.getBlockIndex 8 100 8).toNat := by
      unfold Chunk.getBlockIndex CHUNK_SIZE
      omega
    simp [oneBlockChunk, Chunk.setBlock, Chunk.getBlock, Chunk.init, h8, hb, hidx]
  · simp [Chunk.getBlock, hb]

/-- The whole-chunk mesh build of `oneBlockChunk` reduces to the single
non-air cell at `(8,100,8)`. -/
lemma buildCore_oneBlock :
    Chunk.buildCore oneBlockChunk = Chunk.cellFaces oneBlockChunk 8 100 8 ⟨[], []⟩ := by
  have hrow : ∀ (x y : Int) (md : MeshData), ¬(x = 8 ∧ y = 100) →
      oneBlockChunk.rowFaces x y md = md := by
    intro x y md hxy
    apply foldl_congr_id
    intro a _ b
    exact cellFaces_air (oneBlock_air (by tauto)) b
  have hslice : ∀ (x : Int) (md : MeshData), x ≠ 8 →
      oneBlockChunk.sliceFaces x md = md := by
    intro x md hx
    apply foldl_congr_id
    intro a _ b
    exact hrow x (a : Int) b (by tauto)
  have hrow8 : ∀ md : MeshData, oneBlockChunk.rowFaces 8 100 md =
      oneBlockChunk.cellFaces 8 100 8 md := by
    intro md
    unfold Chunk.rowFaces
    rw [foldl_range_single (fun (md : MeshData) (z : Nat) => oneBlockChunk.cellFaces 8 100 (z : Int) md)
      16 8 (by omega)]
    · rfl
    · intro a _ ha b
      refine cellFaces_air (oneBlock_air ?_) b
      rintro ⟨-, -, hza⟩
      exact ha (by exact_mod_cast hza)
  have hslice8 : ∀ md : MeshData, oneBlockChunk.sliceFaces 8 md =
      oneBlockChunk.cellFaces 8 100 8 md := by
    intro md
    unfold Chunk.sliceFaces
    rw [foldl_range_single (fun (md : MeshData) (y : Nat) => oneBlockChunk.rowFaces 8 (y : Int) md)
      256 100 (by omega)]
    · exact hrow8 md
    · intro a _ ha b
      refine hrow 8 (a : Int) b ?_
      rintro ⟨-, hya⟩
      exact ha (by exact_mod_cast hya)
  unfold Chunk.buildCore
  rw [foldl_range_single (fun (md : MeshData) (x : Nat) => oneBlockChunk.sliceFaces (x : Int) md)
    16 8 (by omega)]
  · exact hslice8 ⟨[], []⟩
  · intro a _ ha b
    refine hslice (a : Int) b ?_
    intro hxa
    exact ha (by exact_mod_cast hxa)

/-- `setBlock` never changes the chunk's x coordinate. -/
lemma setBlock_chunkX (c : Chunk) (x y z : Int) (t : BlockType) :
    (c.setBlock x y z t).chunkX = c.chunkX := by
  unfold Chunk.setBlock
  split <;> rfl

/-- `setBlock` never changes the chunk's z coordinate. -/
lemma setBlock_chunkZ (c : Chunk) (x y z : Int) (t : BlockType) :
    (c.setBlock x y z t).chunkZ = c.chunkZ := by
  unfold Chunk.setBlock
  split <;> rfl

/-- A fold whose step preserves a projection preserves it globally. -/
lemma foldl_pres {α β γ : Type} (g : α → γ) (f : α → β → α)
    (hf : ∀ a b, g (f a b) = g a) (l : List β) (init : α) :
    g (l.foldl f init) = g init := by
  induction l generalizing init with
  | nil => rfl
  | cons b l ih =>
    rw [List.foldl_cons, ih, hf]

/-- `fillColumn` never changes the chunk's x coordinate. -/
lemma fillColumn_chunkX (sf cf : ℚ → ℚ) (c : Chunk) (x z : Int) :
    (Chunk.fillColumn sf cf c x z).chunkX = c.chunkX := by
  unfold Chunk.fillColumn
  exact foldl_pres Chunk.chunkX
    (fun (c2 : Chunk) (y : Nat) =>
      c2.setBlock x (y : Int) z (layerBlock (Chunk.columnHeight sf cf c x z) (y : Int)))
    (fun a b => setBlock_chunkX a x (b : Int) z _) (List.range 256) c

/-- `fillColumn` never changes the chunk's z coordinate. -/
lemma fillColumn_chunkZ (sf cf : ℚ → ℚ) (c : Chunk) (x z : Int) :
    (Chunk.fillColumn sf cf c x z).chunkZ = c.chunkZ := by
  unfold Chunk.fillColumn
  exact foldl_pres Chunk.chunkZ
    (fun (c2 : Chunk) (y : Nat) =>
      c2.setBlock x (y : Int) z (layerBlock (Chunk.columnHeight sf cf c x z) (y : Int)))
    (fun a b => setBlock_chunkZ a x (b : Int) z _) (List.range 256) c

/-- `columnHeight` only reads the chunk coordinates. -/
lemma columnHeight_congr (sf cf : ℚ → ℚ) {c1 c2 : Chunk}
    (hx : c1.chunkX = c2.chunkX) (hz : c1.chunkZ = c2.chunkZ) :
    ∀ x z : Int, Chunk.columnHeight sf cf c1 x z = Chunk.columnHeight sf cf c2 x z := by
  intro x z
  unfold Chunk.columnHeight
  rw [hx, hz]

/-- The block array after an in-bounds `setBlock`. -/
lemma setBlock_blocks_in (c : Chunk) {x y z : Int}
    (hb : Chunk.isInBounds x y z = true) (t : BlockType) :
    (c.setBlock x y z t).blocks =
      fun j => if j = (Chunk.getBlockIndex x y z).toNat then t else c.blocks j := by
  unfold Chunk.setBlock
  rw [if_pos hb]

/-- After the first `n` iterations of `fillColumn`'s write loop, the cells
of column `(x,z)` below level `n` hold their layer value and every other
cell is untouched. -/
lemma fillColumn_aux (sf cf : ℚ → ℚ) (c : Chunk) (x z : Int)
    (hx0 : 0 ≤ x) (hx1 : x < 16) (hz0 : 0 ≤ z) (hz1 : z < 16) :
    ∀ n : Nat, n ≤ 256 →
      ((List.range n).foldl
        (fun (c2 : Chunk) (y : Nat) =>
          c2.setBlock x (y : Int) z
            (layerBlock (Chunk.columnHeight sf cf c x z) (y : Int))) c).blocks =
      fun j =>
        if j < 256 * n ∧ j % 256 = (x + 16 * z).toNat then
          layerBlock (Chunk.columnHeight sf cf c x z) ((j / 256 : Nat) : Int)
        else c.blocks j := by
  intro n
  induction n with
  | zero =>
    intro _
    funext j
    rw [List.range_zero, List.foldl_nil, if_neg (by omega)]
  | succ n ih =>
    intro hn
    rw [List.range_succ, List.foldl_append, List.foldl_cons, List.foldl_nil]
    have hb : Chunk.isInBounds x (n : Int) z = true :=
      isInBounds_iff.mpr ⟨hx0, hx1, by omega, by omega, hz0, hz1⟩
    rw [setBlock_blocks_in _ hb]
    simp only [ih (by omega)]
    funext j
    dsimp only
    have hidx : (Chunk.getBlockIndex x (n : Int) z).toNat = (x + 16 * z).toNat + 256 * n := by
      unfold Chunk.getBlockIndex CHUNK_SIZE
      omega
    rw [hidx]
    have hr : (x + 16 * z).toNat < 256 := by omega
    by_cases h1 : j = (x + 16 * z).toNat + 256 * n
    · rw [if_pos h1,
        if_pos (show j < 256 * (n + 1) ∧ j % 256 = (x + 16 * z).toNat by omega)]
      have hj : j / 256 = n := by omega
      rw [hj]
    · rw [if_neg h1]
      by_cases h2 : j < 256 * n ∧ j % 256 = (x + 16 * z).toNat
      · rw [if_pos h2,
          if_pos (show j < 256 * (n + 1) ∧ j % 256 = (x + 16 * z).toNat by omega)]
      · rw [if_neg h2,
          if_neg (show ¬(j < 256 * (n + 1) ∧ j % 256 = (x + 16 * z).toNat) by omega)]

/-- The effect of one full `fillColumn` call on the block array. -/
lemma fillColumn_blocks (sf cf : ℚ → ℚ) (c : Chunk) (x z : Int)
    (hx0 : 0 ≤ x) (hx1 : x < 16) (hz0 : 0 ≤ z) (hz1 : z < 16) :
    (Chunk.fillColumn sf cf c x z).blocks =
      fun j =>
        if j < 65536 ∧ j % 256 = (x + 16 * z).toNat then
          layerBlock (Chunk.columnHeight sf cf c x z) ((j / 256 : Nat) : Int)
        else c.blocks j := by
  unfold Chunk.fillColumn
  rw [fillColumn_aux sf cf c x z hx0 hx1 hz0 hz1 256 (by omega)]

/-- After the first `m` columns of one x-slice of `generate`, the cells of
those columns hold their layer value (with the height computed from the
original chunk coordinates) and every other cell is untouched. -/
lemma genSlice_aux (sf cf : ℚ → ℚ) (c0 : Chunk) (x : Int)
    (hx0 : 0 ≤ x) (hx1 : x < 16) :
    ∀ m : Nat, m ≤ 16 → ∀ c : Chunk, c.chunkX = c0.chunkX → c.chunkZ = c0.chunkZ →
      ((List.range m).foldl
          (fun (cz : Chunk) (z : Nat) => Chunk.fillColumn sf cf cz x (z : Int)) c).chunkX
        = c0.chunkX ∧
      ((List.range m).foldl
          (fun (cz : Chunk) (z : Nat) => Chunk.fillColumn sf cf cz x (z : Int)) c).chunkZ
        = c0.chunkZ ∧
      ((List.range m).foldl
          (fun (cz : Chunk) (z : Nat) => Chunk.fillColumn sf cf cz x (z : Int)) c).blocks =
        fun j =>
          if j < 65536 ∧ j % 16 = x.toNat ∧ (j % 256) / 16 < m then
            layerBlock
              (Chunk.columnHeight sf cf c0 x (((j % 256) / 16 : Nat) : Int))
              ((j / 256 : Nat) : Int)
          else c.blocks j := by
  intro m
  induction m with
  | zero =>
    intro _ c hcx hcz
    rw [List.range_zero, List.foldl_nil]
    refine ⟨hcx, hcz, ?_⟩
    funext j
    rw [if_neg (by omega)]
  | succ m ih =>
    intro hm c hcx hcz
    rw [List.range_succ, List.foldl_append, List.foldl_cons, List.foldl_nil]
    obtain ⟨ihx, ihz, ihb⟩ := ih (by omega) c hcx hcz
    refine ⟨?_, ?_, ?_⟩
    · rw [fillColumn_chunkX]
      exact ihx
    · rw [fillColumn_chunkZ]
      exact ihz
    · rw [fillColumn_blocks sf cf _ x (m : Int) hx0 hx1 (by omega) (by omega)]
      simp only [columnHeight_congr sf cf ihx ihz, ihb]
      funext j
      by_cases h1 : j < 65536 ∧ j % 256 = (x + 16 * (m : Int)).toNat
      · rw [if_pos h1,
          if_pos (show j < 65536 ∧ j % 16 = x.toNat ∧ (j % 256) / 16 < m + 1 by omega)]
        have hz16 : (j % 256) / 16 = m := by omega
        rw [hz16]
      · rw [if_neg h1]
        by_cases h2 : j < 65536 ∧ j % 16 = x.toNat ∧ (j % 256) / 16 < m
        · rw [if_pos h2,
            if_pos (show j < 65536 ∧ j % 16 = x.toNat ∧ (j % 256) / 16 < m + 1 by omega)]
        · rw [if_neg h2,
            if_neg (show ¬(j < 65536 ∧ j % 16 = x.toNat ∧ (j % 256) / 16 < m + 1) by omega)]

/-- After the first `k` x-slices of `generate`, the cells of those slices
hold their layer value and every other cell is untouched. -/
lemma generate_aux (sf cf : ℚ → ℚ) (c0 : Chunk) :
    ∀ k : Nat, k ≤ 16 → ∀ c : Chunk, c.chunkX = c0.chunkX → c.chunkZ = c0.chunkZ →
      ((List.range k).foldl
          (fun (cx : Chunk) (x : Nat) =>
            (List.range 16).foldl
              (fun (cz : Chunk) (z : Nat) => Chunk.fillColumn sf cf cz (x : Int) (z : Int))
              cx) c).chunkX = c0.chunkX ∧
      ((List.range k).foldl
          (fun (cx : Chunk) (x : Nat) =>
            (List.range 16).foldl
              (fun (cz : Chunk) (z : Nat) => Chunk.fillColumn sf cf cz (x : Int) (z : Int))
              cx) c).chunkZ = c0.chunkZ ∧
      ((List.range k).foldl
          (fun (cx : Chunk) (x : Nat) =>
            (List.range 16).foldl
              (fun (cz : Chunk) (z : Nat) => Chunk.fillColumn sf cf cz (x : Int) (z : Int))
              cx) c).blocks =
        fun j =>
          if j < 65536 ∧ j % 16 < k then
            layerBlock
              (Chunk.columnHeight sf cf c0 ((j % 16 : Nat) : Int)
                (((j % 256) / 16 : Nat) : Int))
              ((j / 256 : Nat) : Int)
          else c.blocks j := by
  intro k
  induction k with
  | zero =>
    intro _ c hcx hcz
    rw [List.range_zero, List.foldl_nil]
    refine ⟨hcx, hcz, ?_⟩
    funext j
    rw [if_neg (by omega)]
  | succ k ih =>
    intro hk c hcx hcz
    rw [List.range_succ k, List.foldl_append, List.foldl_cons, List.foldl_nil]
    obtain ⟨ihx, ihz, ihb⟩ := ih (by omega) c hcx hcz
    obtain ⟨sx, sz, sb⟩ :=
      genSlice_aux sf cf c0 (k : Int) (by omega) (by omega) 16 (by omega) _ ihx ihz
    refine ⟨sx, sz, ?_⟩
    rw [sb]
    simp only [ihb, Int.toNat_natCast]
    funext j
    by_cases h1 : j < 65536 ∧ j % 16 = k
    · rw [if_pos (show j < 65536 ∧ j % 16 = k ∧ (j % 256) / 16 < 16 by omega),
        if_pos (show j < 65536 ∧ j % 16 < k + 1 by omega)]
      have hk16 : j % 16 = k := h1.2
      rw [hk16]
    · rw [if_neg (show ¬(j < 65536 ∧ j % 16 = k ∧ (j % 256) / 16 < 16) by omega)]
      by_cases h2 : j < 65536 ∧ j % 16 < k
      · rw [if_pos h2, if_pos (show j < 65536 ∧ j % 16 < k + 1 by omega)]
      · rw [if_neg h2, if_neg (show ¬(j < 65536 ∧ j % 16 < k + 1) by omega)]

/-- The effect of `Chunk::generate` on the block array: every cell holds
the layer value of its column at its level. -/
lemma generate_blocks (sf cf : ℚ → ℚ) (c : Chunk) :
    (Chunk.generate sf cf c).blocks =
      fun j =>
        if j < 65536 then
          layerBlock
            (Chunk.columnHeight sf cf c ((j % 16 : Nat) : Int)
              (((j % 256) / 16 : Nat) : Int))
            ((j / 256 : Nat) : Int)
        else c.blocks j := by
  obtain ⟨-, -, hb⟩ := generate_aux sf cf c 16 (by omega) c rfl rfl
  unfold Chunk.generate
  dsimp only
  rw [hb]
  funext j
  by_cases h1 : j < 65536
  · rw [if_pos (by omega : j < 65536 ∧ j % 16 < 16), if_pos h1]
  · rw [if_neg (by omega : ¬(j < 65536 ∧ j % 16 < 16)), if_neg h1]

/-! ## Claim theorems -/

/-- C1: for every in-bounds local coordinate `(x,y,z)` with `0 ≤ x < 16`,
`0 ≤ y < 256`, `0 ≤ z < 16` and every block type `T`, calling
`setBlock(x,y,z,T)` on a chunk and then `getBlock(x,y,z)` on the same
chunk returns `T`. -/
theorem setBlock_getBlock_roundtrip (c : Chunk) (x y z : Int) (t : BlockType)
    (hx0 : 0 ≤ x) (hx : x < 16) (hy0 : 0 ≤ y) (hy : y < 256)
    (hz0 : 0 ≤ z) (hz : z < 16) :
    (c.setBlock x y z t).getBlock x y z = t := by
  have hb : Chunk.isInBounds x y z = true :=
    isInBounds_iff.mpr ⟨hx0, hx, hy0, hy, hz0, hz⟩
  simp [Chunk.getBlock, Chunk.setBlock, hb]

/-- Witness for C1 at `(3,4,5)` with `Stone` on a fresh chunk. -/
theorem setBlock_getBlock_roundtrip_witness :
    (((Chunk.init 0 0 0).setBlock 3 4 5 BlockType.Stone).getBlock 3 4 5) =
      BlockType.Stone :=
  setBlock_getBlock_roundtrip (Chunk.init 0 0 0) 3 4 5 BlockType.Stone
    (by decide) (by decide) (by decide) (by decide) (by decide) (by decide)

/-- C2: for every out-of-bounds local coordinate, `getBlock` returns the
air sentinel, and `setBlock` is a no-op: the whole chunk state (in
particular the block storage and the dirty flag) is exactly as before,
for every prior chunk state and every type `T`.  (The embedding is total,
so "never throws" holds by construction.) -/
theorem outOfBounds_getBlock_air_setBlock_noop (c : Chunk) (x y z : Int)
    (t : BlockType)
    (h : ¬(0 ≤ x ∧ x < 16 ∧ 0 ≤ y ∧ y < 256 ∧ 0 ≤ z ∧ z < 16)) :
    c.getBlock x y z = BlockType.Air ∧ c.setBlock x y z t = c := by
  have hb : ¬Chunk.isInBounds x y z = true := fun hc => h (isInBounds_iff.mp hc)
  constructor <;> simp [Chunk.getBlock, Chunk.setBlock, hb]

/-- Witness for C2 at the out-of-bounds coordinate `(-1, 0, 0)`. -/
theorem outOfBounds_getBlock_air_setBlock_noop_witness :
    (Chunk.init 0 0 0).getBlock (-1) 0 0 = BlockType.Air ∧
      (Chunk.init 0 0 0).setBlock (-1) 0 0 BlockType.Stone = Chunk.init 0 0 0 :=
  outOfBounds_getBlock_air_setBlock_noop (Chunk.init 0 0 0) (-1) 0 0
    BlockType.Stone (by decide)

/-- C9 (counterexample): it is false that every `setBlock` call — also an
out-of-bounds one — sets the dirty flag: on a clean chunk, the
out-of-bounds write `setBlock(-1,0,0,Stone)` leaves `meshDirty = false`. -/
theorem setBlock_always_dirty_cex :
    ¬(∀ (c : Chunk) (x y z : Int) (t : BlockType),
        (c.setBlock x y z t).meshDirty = true) := by
  intro h
  have hc := h builtChunk (-1) 0 0 BlockType.Stone
  have hf : (builtChunk.setBlock (-1) 0 0 BlockType.Stone).meshDirty = false := by
    decide
  rw [hc] at hf
  exact absurd hf (by decide)

/-- C9 (amended): every in-bounds `setBlock` sets `meshDirty = true`
before returning; an out-of-bounds `setBlock` leaves the dirty flag
unchanged. -/
theorem setBlock_dirty_amended (c : Chunk) (x y z : Int) (t : BlockType) :
    (Chunk.isInBounds x y z = true → (c.setBlock x y z t).meshDirty = true) ∧
      (Chunk.isInBounds x y z = false →
        (c.setBlock x y z t).meshDirty = c.meshDirty) := by
  constructor <;> intro h <;> simp [Chunk.setBlock, h]

/-- Witness for the amended C9: an in-bounds write marks the chunk dirty. -/
theorem setBlock_dirty_amended_witness :
    ((Chunk.init 0 0 0).setBlock 0 0 0 BlockType.Stone).meshDirty = true :=
  (setBlock_dirty_amended (Chunk.init 0 0 0) 0 0 0 BlockType.Stone).1 (by decide)

/-- C6 (counterexample): `chunkKey` as computed by
`(chunkX << 16) | (chunkZ & 0xFFFF)` is not injective over the signed
`int` coordinate range: the distinct pairs `(0, -1)` and `(0, 65535)`
produce the same key (the `& 0xFFFF` masking loses the sign of `chunkZ`). -/
theorem chunkKey_not_injective_cex :
    ¬(∀ x1 z1 x2 z2 : Int, (x1, z1) ≠ (x2, z2) →
        World.chunkKey x1 z1 ≠ World.chunkKey x2 z2) := by
  intro h
  exact h 0 (-1) 0 65535 (by decide) (by decide)

/-- C6 (amended): `chunkKey` is injective on coordinate pairs whose
components both lie in the 16-bit signed range `[-32768, 32768)`; outside
that range distinct pairs can collide. -/
theorem chunkKey_injective_16bit (x1 z1 x2 z2 : Int)
    (hx1l : -32768 ≤ x1) (hx1u : x1 < 32768) (hz1l : -32768 ≤ z1) (hz1u : z1 < 32768)
    (hx2l : -32768 ≤ x2) (hx2u : x2 < 32768) (hz2l : -32768 ≤ z2) (hz2u : z2 < 32768)
    (h : World.chunkKey x1 z1 = World.chunkKey x2 z2) :
    x1 = x2 ∧ z1 = z2 := by
  rw [chunkKey_closed x1 z1 hx1l hx1u, chunkKey_closed x2 z2 hx2l hx2u] at h
  constructor <;> omega

/-- Witness for the amended C6 at the pair `(-5, 7)`. -/
theorem chunkKey_injective_16bit_witness : (-5 : Int) = -5 ∧ (7 : Int) = 7 :=
  chunkKey_injective_16bit (-5) 7 (-5) 7 (by decide) (by decide) (by decide)
    (by decide) (by decide) (by decide) (by decide) (by decide) rfl

/-- C7: the terrain height function is deterministic (it is a pure
function of its arguments — two applications to identical input are the
same term) and bounded: its value always lies in `[1, CHUNK_HEIGHT - 1]`,
i.e. `[1, 255]`, for every abstract `sin`/`cos` and every input. -/
theorem generateHeight_deterministic_bounded (sinF cosF : ℚ → ℚ) (x z : ℚ) :
    Chunk.generateHeight sinF cosF x z = Chunk.generateHeight sinF cosF x z ∧
      1 ≤ Chunk.generateHeight sinF cosF x z ∧
      Chunk.generateHeight sinF cosF x z ≤ CHUNK_HEIGHT - 1 := by
  refine ⟨rfl, ?_, ?_⟩ <;>
    · unfold Chunk.generateHeight clampInt CHUNK_HEIGHT
      split_ifs <;> omega

/-- C8: `idx(x,y,z) = y*(16*16) + z*16 + x` is a bijection between the
coordinate cube `[0,16)×[0,256)×[0,16)` and `[0, 65536)`: it is injective
over the cube, every index in `[0, 65536)` has exactly one preimage, and
the header's `GetIndex` and `chunk.cpp`'s `getBlockIndex` compute the
same function. -/
theorem getIndex_bijection :
    (∀ x y z x2 y2 z2 : Int,
      0 ≤ x → x < 16 → 0 ≤ y → y < 256 → 0 ≤ z → z < 16 →
      0 ≤ x2 → x2 < 16 → 0 ≤ y2 → y2 < 256 → 0 ≤ z2 → z2 < 16 →
      GetIndex x y z = GetIndex x2 y2 z2 → x = x2 ∧ y = y2 ∧ z = z2) ∧
    (∀ i : Int, 0 ≤ i → i < 65536 →
      ∃! p : Int × Int × Int,
        (0 ≤ p.1 ∧ p.1 < 16 ∧ 0 ≤ p.2.1 ∧ p.2.1 < 256 ∧
          0 ≤ p.2.2 ∧ p.2.2 < 16) ∧
        GetIndex p.1 p.2.1 p.2.2 = i) ∧
    (∀ x y z : Int, GetIndex x y z = Chunk.getBlockIndex x y z) := by
  refine ⟨?_, ?_, ?_⟩
  · intro x y z x2 y2 z2 _ _ _ _ _ _ _ _ _ _ _ _ h
    unfold GetIndex at h
    omega
  · intro i h0 h1
    refine ⟨⟨i % 16, i / 256, i / 16 % 16⟩, ⟨?_, ?_⟩, ?_⟩
    · dsimp only
      omega
    · dsimp only
      unfold GetIndex
      omega
    · rintro ⟨a, b, d⟩ ⟨hb, he⟩
      dsimp only at hb he
      unfold GetIndex at he
      simp only [Prod.mk.injEq]
      omega
  · intro x y z
    unfold GetIndex Chunk.getBlockIndex CHUNK_SIZE
    ring

/-- Witness for C8: index `0` has exactly one preimage in the cube. -/
theorem getIndex_bijection_witness :
    ∃! p : Int × Int × Int,
      (0 ≤ p.1 ∧ p.1 < 16 ∧ 0 ≤ p.2.1 ∧ p.2.1 < 256 ∧
        0 ≤ p.2.2 ∧ p.2.2 < 16) ∧
      GetIndex p.1 p.2.1 p.2.2 = 0 :=
  getIndex_bijection.2.1 0 (by decide) (by decide)

/-- C10: a newly constructed chunk has every cell equal to air (so
`getBlock` returns air everywhere), `meshDirty = true` and
`meshBuilt = false`; hence the first `buildMesh` call does not take the
early-return path and performs a build. -/
theorem init_chunk_state (cx cy cz : Int) :
    (∀ i, (Chunk.init cx cy cz).blocks i = BlockType.Air) ∧
    (∀ x y z : Int, (Chunk.init cx cy cz).getBlock x y z = BlockType.Air) ∧
    (Chunk.init cx cy cz).meshDirty = true ∧
    (Chunk.init cx cy cz).meshBuilt = false ∧
    (!(Chunk.init cx cy cz).meshDirty && (Chunk.init cx cy cz).meshBuilt) = false ∧
    ((Chunk.init cx cy cz).buildMesh).meshBuilt = true := by
  refine ⟨fun _ => rfl, fun x y z => ?_, rfl, rfl, rfl, rfl⟩
  simp [Chunk.getBlock, Chunk.init]

/-- C3: after `generate()` runs on a chunk, every in-bounds cell of every
column `(x,z)` with `h = generateHeight(worldX, worldZ)` satisfies
exactly: `y < h-3` holds the fill type (stone), `h-3 ≤ y < h` holds the
soil type (dirt), `y = h` holds the surface type (grass), and `y > h` is
air — proved for every height value, hence exact at the boundaries
`h-3 ≤ 0` and `h = chunkHeight-1`. -/
theorem generate_terrain_layering (sf cf : ℚ → ℚ) (c : Chunk) (x y z : Int)
    (hx0 : 0 ≤ x) (hx1 : x < 16) (hy0 : 0 ≤ y) (hy1 : y < 256)
    (hz0 : 0 ≤ z) (hz1 : z < 16) :
    (y < Chunk.columnHeight sf cf c x z - 3 →
      (Chunk.generate sf cf c).getBlock x y z = BlockType.Stone) ∧
    (Chunk.columnHeight sf cf c x z - 3 ≤ y → y < Chunk.columnHeight sf cf c x z →
      (Chunk.generate sf cf c).getBlock x y z = BlockType.Dirt) ∧
    (y = Chunk.columnHeight sf cf c x z →
      (Chunk.generate sf cf c).getBlock x y z = BlockType.Grass) ∧
    (Chunk.columnHeight sf cf c x z < y →
      (Chunk.generate sf cf c).getBlock x y z = BlockType.Air) := by
  have hb : Chunk.isInBounds x y z = true :=
    isInBounds_iff.mpr ⟨hx0, hx1, hy0, hy1, hz0, hz1⟩
  have hget : (Chunk.generate sf cf c).getBlock x y z =
      layerBlock (Chunk.columnHeight sf cf c x z) y := by
    unfold Chunk.getBlock
    rw [if_pos hb, generate_blocks]
    dsimp only
    have hj1 : (Chunk.getBlockIndex x y z).toNat < 65536 := by
      unfold Chunk.getBlockIndex CHUNK_SIZE
      omega
    rw [if_pos hj1]
    have hj2 : (Chunk.getBlockIndex x y z).toNat % 16 = x.toNat := by
      unfold Chunk.getBlockIndex CHUNK_SIZE
      omega
    have hj3 : ((Chunk.getBlockIndex x y z).toNat % 256) / 16 = z.toNat := by
      unfold Chunk.getBlockIndex CHUNK_SIZE
      omega
    have hj4 : (Chunk.getBlockIndex x y z).toNat / 256 = y.toNat := by
      unfold Chunk.getBlockIndex CHUNK_SIZE
      omega
    rw [hj2, hj3, hj4, Int.toNat_of_nonneg hx0, Int.toNat_of_nonneg hy0,
      Int.toNat_of_nonneg hz0]
  refine ⟨fun h1 => ?_, fun h1 h2 => ?_, fun h1 => ?_, fun h1 => ?_⟩ <;>
    rw [hget] <;> unfold layerBlock <;> split_ifs <;> first | rfl | omega

/-- Witness for C3 with constant stand-ins for sin/cos that force the
boundary height `h = 1` (so `h - 3 < 0`): on a fresh chunk at the origin,
level 1 of column `(0,0)` is the grass surface. -/
theorem generate_terrain_layering_witness :
    (Chunk.generate constNegOne constNegOne (Chunk.init 0 0 0)).getBlock 0 1 0 =
      BlockType.Grass := by
  have h := (generate_terrain_layering constNegOne constNegOne (Chunk.init 0 0 0)
    0 1 0 (by decide) (by decide) (by decide) (by decide) (by decide) (by decide)).2.2.1
  apply h
  show (1 : Int) = Chunk.columnHeight constNegOne constNegOne (Chunk.init 0 0 0) 0 0
  simp only [Chunk.columnHeight, Chunk.generateHeight, truncQ, clampInt,
    constNegOne, Chunk.init, CHUNK_SIZE, CHUNK_HEIGHT]
  norm_num

set_option maxRecDepth 100000 in
/-- C4: during `buildMesh`, a face of a non-air block is emitted iff the
single adjacent cell along that face's axis — resolved by the same-chunk
`getBlock`, which yields air out of bounds — is air; every emitted face
contributes exactly 4 vertices (32 floats) and 6 indices; a single solid
block surrounded by air yields 6 faces (24 vertices, 36 indices), and
the same block with exactly one solid neighbour yields 5 faces. -/
theorem face_culling_and_counts :
    (∀ (c : Chunk) (x y z : Int) (t : BlockType) (face : Nat) (md : MeshData),
      face < 6 →
      (c.getBlock (faceNeighbor x y z face).1 (faceNeighbor x y z face).2.1
          (faceNeighbor x y z face).2.2 = BlockType.Air →
        c.addFaceIfExposed x y z t face md = addFace x y z face t md ∧
        (addFace x y z face t md).vertices.length = md.vertices.length + 32 ∧
        (addFace x y z face t md).indices.length = md.indices.length + 6) ∧
      (c.getBlock (faceNeighbor x y z face).1 (faceNeighbor x y z face).2.1
          (faceNeighbor x y z face).2.2 ≠ BlockType.Air →
        c.addFaceIfExposed x y z t face md = md)) ∧
    (Chunk.buildCore oneBlockChunk).vertices.length = 24 * 8 ∧
    (Chunk.buildCore oneBlockChunk).indices.length = 36 ∧
    exposedFaceCount oneBlockChunk 8 100 8 = 6 ∧
    exposedFaceCount twoBlockChunk 8 100 8 = 5 := by
  refine ⟨?_, ?_, ?_, ?_, ?_⟩
  · intro c x y z t face md hface
    constructor
    · intro hair
      exact ⟨by simp [Chunk.addFaceIfExposed, hair],
        (addFace_lengths x y z face t md hface).1,
        (addFace_lengths x y z face t md hface).2⟩
    · intro hna
      simp [Chunk.addFaceIfExposed, hna]
  · rw [buildCore_oneBlock]
    decide
  · rw [buildCore_oneBlock]
    decide
  · decide
  · decide

/-- Witness for C4: at `(8,100,8)` of the one-block chunk the `+z` face
is emitted (neighbour is air), while in the two-block chunk the `+y`
face is suppressed (neighbour is solid). -/
theorem face_culling_and_counts_witness :
    oneBlockChunk.addFaceIfExposed 8 100 8 BlockType.Stone 0 ⟨[], []⟩ =
      addFace 8 100 8 0 BlockType.Stone ⟨[], []⟩ ∧
    twoBlockChunk.addFaceIfExposed 8 100 8 BlockType.Stone 5 ⟨[], []⟩ = ⟨[], []⟩ :=
  ⟨((face_culling_and_counts.1 oneBlockChunk 8 100 8 BlockType.Stone 0 ⟨[], []⟩
      (by decide)).1 (by decide)).1,
    (face_culling_and_counts.1 twoBlockChunk 8 100 8 BlockType.Stone 5 ⟨[], []⟩
      (by decide)).2 (by decide)⟩

/-- C5: `buildMesh` early-returns exactly when the chunk is clean and
already built, always leaves `meshDirty = false` and `meshBuilt = true`,
is idempotent (the second call returns the state — in particular the
uploaded buffers — unchanged), and generates GL names only on a first
build. -/
theorem buildMesh_contract (c : Chunk) :
    ((!c.meshDirty && c.meshBuilt) = true → c.buildMesh = c) ∧
    (c.buildMesh).meshDirty = false ∧
    (c.buildMesh).meshBuilt = true ∧
    c.buildMesh.buildMesh = c.buildMesh ∧
    (c.buildMesh.buildMesh).vboData = (c.buildMesh).vboData ∧
    (c.buildMesh.buildMesh).eboData = (c.buildMesh).eboData ∧
    (c.buildMesh.buildMesh).genCount = (c.buildMesh).genCount ∧
    (c.meshBuilt = true → (c.buildMesh).genCount = c.genCount) ∧
    (c.meshBuilt = false → (c.buildMesh).genCount = c.genCount + 3) := by
  have hearly : ∀ d : Chunk, (!d.meshDirty && d.meshBuilt) = true →
      Chunk.buildMesh d = d := by
    intro d h
    simp [Chunk.buildMesh, h]
  have hflags : ∀ d : Chunk,
      (Chunk.buildMesh d).meshDirty = false ∧ (Chunk.buildMesh d).meshBuilt = true := by
    intro d
    by_cases hg : (!d.meshDirty && d.meshBuilt) = true
    · rw [hearly d hg]
      simpa using hg
    · simp [Chunk.buildMesh, hg]
  have hidem : Chunk.buildMesh (Chunk.buildMesh c) = Chunk.buildMesh c := by
    apply hearly
    rw [(hflags c).1, (hflags c).2]
    rfl
  refine ⟨hearly c, (hflags c).1, (hflags c).2, hidem, by rw [hidem], by rw [hidem],
    by rw [hidem], ?_, ?_⟩
  · intro hb
    by_cases hg : (!c.meshDirty && c.meshBuilt) = true
    · rw [hearly c hg]
    · have hd : c.meshDirty = true := by
        revert hg
        rw [hb]
        cases c.meshDirty <;> simp
      simp [Chunk.buildMesh, hd, hb]
  · intro hb
    have hg : (!c.meshDirty && c.meshBuilt) = false := by
      rw [hb]
      simp
    simp [Chunk.buildMesh, hg, hb]

/-- Witness for C5: a clean built chunk is returned unchanged, and a
fresh chunk's first build allocates its three GL names. -/
theorem buildMesh_contract_witness :
    builtChunk.buildMesh = builtChunk ∧
      ((Chunk.init 0 0 0).buildMesh).genCount = (Chunk.init 0 0 0).genCount + 3 :=
  ⟨(buildMesh_contract builtChunk).1 (by decide),
    (buildMesh_contract (Chunk.init 0 0 0)).2.2.2.2.2.2.2.2 (by decide)⟩

end Cppcraft
